import Mathlib

/-!
Expense-Management-System: verification of the temporal summary engine and
the expense service.

Shallow embedding of `src/backend/src/repository/crud/expense.py`,
`src/backend/src/models/schemas/expense.py` and
`src/backend/src/api/routes/expense.py`.

The database table of expenses is modelled as a `List Expense`; SQL
aggregate queries (`func.sum` with `extract("year"/"month", ...)` filters)
become filtered sums over that list; Python `float` amounts become `ℚ`;
`round(x, 2)` becomes `round2`; `datetime.now()` becomes an explicit
`today : Date` argument.
-/

namespace ExpenseMS

/-- A calendar date (no time component), as stored in the `expense_date`
`sa.Date` column. Only year/month/day are kept; all bucketing uses
year and month via SQL `extract`. -/
structure Date where
  year : Int
  month : Nat
  day : Nat
deriving DecidableEq, Repr

/-- A row of the `expenses` table (initial migration
`24ab0d024d1c_initial_migration.py`): ids are abstracted to `Nat`,
`sa.Float` amount to `ℚ`, nullable columns to `Option`. -/
structure Expense where
  expenses_id : Nat
  user_id : Nat
  category_id : Nat
  subject : String
  expense_date : Date
  amount : ℚ
  reimbursable : Bool
  description : Option String
  invoice_image : Option String
  employee : Option String
  updated_at : Nat
deriving DecidableEq, Repr

/-- A row of the `category` table. The migration puts a unique index on
`name` (`ix_category_name`, unique=True). -/
structure Category where
  category_id : Nat
  name : String
  is_active : Bool
deriving DecidableEq, Repr

/-- Schema `GeneralSummary` of the response (`models/schemas/expense.py`). -/
structure GeneralSummary where
  total_spending : ℚ
  this_month : ℚ
  last_month : ℚ
  this_quarter : ℚ
  last_quarter : ℚ
deriving DecidableEq, Repr

/-- Python `round(x, 2)`: round to 2 decimal places. -/
def round2 (q : ℚ) : ℚ := (round (q * 100) : ℤ) / 100

/-- SQL `SELECT sum(amount) WHERE p`: the sum of the amounts of the rows
satisfying `p` (the SQL sum of an empty set is NULL, which the code turns
into 0 via `or 0`; the empty list sums to 0 here). -/
def sumWhere (p : Expense → Bool) (es : List Expense) : ℚ :=
  ((es.filter p).map Expense.amount).sum

/-- Test `extract("month", expense_date) in range((q-1)*3+1, q*3+1)`:
membership of month `m` in the 3-month range of quarter `q`. -/
def monthInQuarter (q m : Nat) : Bool :=
  (q - 1) * 3 + 1 ≤ m && m ≤ q * 3

/-- Embedding of `get_general_summary_data` (crud/expense.py lines 440-520), with the
database replaced by the expense list and `datetime.now()` replaced by
`today`. -/
def get_general_summary_data (es : List Expense) (year : Int) (today : Date) :
    GeneralSummary :=
  let total_spending := sumWhere (fun e => e.expense_date.year == year) es
  let current_year := today.year
  let current_month := today.month
  let current_quarter := (current_month - 1) / 3 + 1
  let lastMonthPair : Nat × Int :=
    if current_month == 1 then (12, current_year - 1)
    else (current_month - 1, year)
  let lastQuarterPair : Nat × Int :=
    if current_quarter - 1 == 0 then (4, current_year - 1)
    else (current_quarter - 1, current_year)
  let this_month_spending := sumWhere
    (fun e => e.expense_date.year == year &&
      e.expense_date.month == current_month) es
  let last_month_spending := sumWhere
    (fun e => e.expense_date.year == lastMonthPair.2 &&
      e.expense_date.month == lastMonthPair.1) es
  let this_quarter_spending := sumWhere
    (fun e => e.expense_date.year == year &&
      monthInQuarter current_quarter e.expense_date.month) es
  let last_quarter_spending := sumWhere
    (fun e => e.expense_date.year == lastQuarterPair.2 &&
      monthInQuarter lastQuarterPair.1 e.expense_date.month) es
  { total_spending := round2 total_spending
    this_month := round2 this_month_spending
    last_month := round2 last_month_spending
    this_quarter := round2 this_quarter_spending
    last_quarter := round2 last_quarter_spending }

/-- A fixture expense carrying only the fields the summary engine reads. -/
def mkExpense (id : Nat) (d : Date) (amt : ℚ) : Expense :=
  { expenses_id := id, user_id := 1, category_id := 1, subject := "fixture"
    expense_date := d, amount := amt, reimbursable := false
    description := none, invoice_image := none, employee := none
    updated_at := 0 }

/-- The documented test fixture: six expenses in 2024. -/
def fixtureExpenses : List Expense :=
  [ mkExpense 1 ⟨2024, 1, 15⟩ 100
  , mkExpense 2 ⟨2024, 2, 20⟩ 200
  , mkExpense 3 ⟨2024, 3, 25⟩ 150
  , mkExpense 4 ⟨2024, 4, 10⟩ 300
  , mkExpense 5 ⟨2024, 7, 5⟩ 250
  , mkExpense 6 ⟨2024, 8, 15⟩ 50 ]

/-! Last-5-months rollup (`get_last_5_months_summary`, lines 319-377). -/

/-- Abbreviation `expense_date.strftime("%b")`: the English 3-letter month abbreviation. -/
def monthAbbrev : Nat → String
  | 1 => "Jan" | 2 => "Feb" | 3 => "Mar" | 4 => "Apr"
  | 5 => "May" | 6 => "Jun" | 7 => "Jul" | 8 => "Aug"
  | 9 => "Sep" | 10 => "Oct" | 11 => "Nov" | 12 => "Dec"
  | _ => ""

/-- Row predicate: expense dated in month `m` of year `y`. -/
def inYearMonth (y : Int) (m : Nat) (e : Expense) : Bool :=
  e.expense_date.year == y && e.expense_date.month == m

/-- Total amount of the expenses dated in month `m` of year `y`. -/
def monthSum (es : List Expense) (y : Int) (m : Nat) : ℚ :=
  sumWhere (inYearMonth y m) es

/-- Does month `m` of year `y` have at least one expense? -/
def hasMonthData (es : List Expense) (y : Int) (m : Nat) : Bool :=
  es.any (inYearMonth y m)

/-- The 12 month numbers in descending order. -/
def monthsDesc : List Nat := [12, 11, 10, 9, 8, 7, 6, 5, 4, 3, 2, 1]

/-- Embedding of `get_last_5_months_summary` (crud/expense.py lines 319-377). The SQL
query groups the year's rows by exact `expense_date`; the Python loop then
merges those per-date totals into one `monthly_totals` bucket per month
abbreviation, recording each bucket's month number, so the buckets are
exactly the per-month totals. The final
`sorted(..., key=month_num, reverse=True)[:5]` over distinct month numbers
is the descending enumeration of the months with data, truncated to 5. -/
def get_last_5_months_summary (es : List Expense) (year : Int) :
    List (String × ℚ) :=
  ((monthsDesc.filter (hasMonthData es year)).take 5).map
    (fun m => (monthAbbrev m, monthSum es year m))

/-- Spec-side view: the set of month numbers of the requested year's
expenses. -/
def monthsWithData (es : List Expense) (year : Int) : Finset Nat :=
  ((es.filter (fun e => e.expense_date.year == year)).map
    (fun e => e.expense_date.month)).toFinset

/-! Available years (`get_available_years`, lines 424-437). -/

/-- Embedding of `get_available_years` (crud/expense.py lines 424-437):
`SELECT DISTINCT extract("year", expense_date)` followed by
`sorted(years, reverse=True)`. -/
def get_available_years (es : List Expense) : List Int :=
  List.insertionSort (fun a b => a ≥ b)
    ((es.map (fun e => e.expense_date.year)).dedup)

/-! Category rollup (`get_expenses_by_category`, lines 292-316). -/

/-- The inner join `expenses JOIN category ON category_id` restricted to
the requested year, projected to (category name, amount).
`find?` looks the expense's category up by primary key. -/
def joinedRows (cats : List Category) (es : List Expense) (year : Int) :
    List (String × ℚ) :=
  (es.filter (fun e => e.expense_date.year == year)).filterMap
    (fun e => (cats.find? (fun c => c.category_id == e.category_id)).map
      (fun c => (c.name, e.amount)))

/-- Embedding of `get_expenses_by_category` (crud/expense.py lines 292-316): the SQL
`GROUP BY category.name` with `sum(amount)`, then the Python
`.sort(key=amount, reverse=True)`. -/
def get_expenses_by_category (cats : List Category) (es : List Expense)
    (year : Int) : List (String × ℚ) :=
  let rows := joinedRows cats es year
  let names := (rows.map Prod.fst).dedup
  let groups := names.map
    (fun n => (n, ((rows.filter (fun r => r.1 == n)).map Prod.snd).sum))
  List.insertionSort (fun a b => a.2 ≥ b.2) groups

/-- Total of a category's expenses in the year (spec-side view). -/
def categorySum (es : List Expense) (year : Int) (c : Category) : ℚ :=
  sumWhere (fun e => e.expense_date.year == year &&
    e.category_id == c.category_id) es

/-- Does the category have at least one expense in the year? -/
def categoryHasData (es : List Expense) (year : Int) (c : Category) : Bool :=
  es.any (fun e => e.expense_date.year == year &&
    e.category_id == c.category_id)

/-! Update (`update_expense`, lines 181-243). -/

/-- The `ExpenseUpdate` payload as the crud layer reads it: each field is
checked with `is not None` before being applied, so every field is
optional here. (The pydantic schema is modelled separately as
`parseExpenseUpdate`.) -/
structure ExpenseUpdatePayload where
  category_id : Option Nat
  subject : Option String
  expense_date : Option Date
  amount : Option ℚ
  reimbursable : Option Bool
  description : Option String
  employee : Option String
deriving DecidableEq, Repr

/-- The field-by-field `if expense_update.X is not None: expense.X = ...`
block of `update_expense`, plus the invoice replacement and the
unconditional `expense.updated_at = pendulum.now(...)`. -/
def applyUpdate (e : Expense) (u : ExpenseUpdatePayload)
    (newImage : Option String) (now : Nat) : Expense :=
  { e with
    category_id := u.category_id.getD e.category_id
    subject := u.subject.getD e.subject
    expense_date := u.expense_date.getD e.expense_date
    amount := u.amount.getD e.amount
    reimbursable := u.reimbursable.getD e.reimbursable
    description := match u.description with
      | some d => some d
      | none => e.description
    employee := match u.employee with
      | some x => some x
      | none => e.employee
    invoice_image := match newImage with
      | some f => some f
      | none => e.invoice_image
    updated_at := now }

/-- Result of a CRUD write: the raised-or-returned value together with the
state of the expense table after commit/rollback. -/
structure UpdateOutcome where
  result : Except String Expense
  store : List Expense
deriving Repr

/-- Embedding of `update_expense` (crud/expense.py lines 181-243): look the row up by
id (`ValueError "Expense not found"` when absent, which rolls the
transaction back with no writes), apply the non-null payload fields,
refresh `updated_at`, commit. -/
def update_expense (store : List Expense) (expense_id : Nat)
    (u : ExpenseUpdatePayload) (newImage : Option String) (now : Nat) :
    UpdateOutcome :=
  match store.find? (fun e => e.expenses_id == expense_id) with
  | none => { result := .error "Expense not found", store := store }
  | some e =>
    let e2 := applyUpdate e u newImage now
    { result := .ok e2
      store := store.map
        (fun x => if x.expenses_id == expense_id then e2 else x) }

/-! Delete (`delete_expense`, lines 246-289). -/

/-- Result of `delete_expense`: the `True`-or-exception outcome together
with the table after commit/rollback. -/
structure DeleteOutcome where
  result : Except String Bool
  store : List Expense
deriving Repr

/-- Embedding of `delete_expense` (crud/expense.py lines 246-289). The file system is
abstracted by two oracles: `fileExists` models `os.path.exists` and
`removeFails` models `os.remove` raising `OSError`. A raised `OSError`
becomes `RuntimeError "Error deleting invoice image"` before the row is
deleted, so the transaction commits nothing. -/
def delete_expense (store : List Expense)
    (fileExists removeFails : String → Bool) (expense_id : Nat) :
    DeleteOutcome :=
  match store.find? (fun e => e.expenses_id == expense_id) with
  | none => { result := .error "Expense not found", store := store }
  | some e =>
    let removed := store.filter (fun x => !(x.expenses_id == expense_id))
    match e.invoice_image with
    | some f =>
      if fileExists f && removeFails f then
        { result := .error "Error deleting invoice image", store := store }
      else
        { result := .ok true, store := removed }
    | none => { result := .ok true, store := removed }

/-! Pydantic schemas (`models/schemas/expense.py`). -/

/-- Python `str.split()` with no argument: split on runs of whitespace,
dropping empty pieces. Used by the `description_must_have_two_words`
validator as `len(description.split())`. -/
def countWords (s : String) : Nat :=
  ((s.split Char.isWhitespace).filter (fun w => w ≠ "")).length

/-- Python `re.match(r"^\d", s)`: does the string start with a decimal digit? -/
def startsWithDigit (s : String) : Bool :=
  match s.data with
  | c :: _ => c.isDigit
  | [] => false

/-- The `@validator("description")` of `ExpenseCreate`: when a description
is present it must contain at least two words. -/
def description_must_have_two_words (d : Option String) : Bool :=
  match d with
  | none => true
  | some s => 2 ≤ countWords s

/-- The `@validator("employee")` of `ExpenseCreate`: when an employee name
is present it must have at least two characters and not start with a
digit. -/
def employee_name_validation (emp : Option String) : Bool :=
  match emp with
  | none => true
  | some s => 2 ≤ s.length && !(startsWithDigit s)

/-- The raw JSON fields handed to `ExpenseCreate(**expense_data)` /
`ExpenseUpdate(**expense_update_data)`: `none` is an absent (or `null`)
field. -/
structure RawExpensePayload where
  category_id : Option Nat
  subject : Option String
  expense_date : Option Date
  amount : Option ℚ
  reimbursable : Option Bool
  description : Option String
  employee : Option String
deriving DecidableEq, Repr

/-- A validated `ExpenseCreate` pydantic object. -/
structure ExpenseCreateObj where
  category_id : Nat
  subject : String
  expense_date : Date
  amount : ℚ
  reimbursable : Bool
  description : Option String
  employee : Option String
deriving DecidableEq, Repr

/-- Construction of `ExpenseCreate` (schemas/expense.py lines 40-67):
`category_id`, `subject`, `expense_date` and `amount` have no default so
they are required; `subject` carries `min_length=2, max_length=100`,
`amount` carries `gt=0`, `description` and `employee` carry
`max_length=500` / `max_length=100`, `reimbursable` defaults to `False`,
and the two validators run on the optional fields. `none` is a rejected
payload (pydantic `ValidationError`). -/
def parseExpenseCreate (r : RawExpensePayload) : Option ExpenseCreateObj :=
  match r.category_id, r.subject, r.expense_date, r.amount with
  | some cid, some subj, some d, some amt =>
    if (2 ≤ subj.length && subj.length ≤ 100)
        && (0 < amt)
        && (match r.description with
            | none => true
            | some ds => ds.length ≤ 500)
        && (match r.employee with
            | none => true
            | some s => s.length ≤ 100)
        && description_must_have_two_words r.description
        && employee_name_validation r.employee
    then some { category_id := cid, subject := subj, expense_date := d
                amount := amt, reimbursable := r.reimbursable.getD false
                description := r.description, employee := r.employee }
    else none
  | _, _, _, _ => none

/-- Inheritance `class ExpenseUpdate(ExpenseCreate)` (schemas/expense.py lines 70-74):
the class body is empty, so the update schema is exactly the create
schema — same required fields, same validators. -/
def parseExpenseUpdate : RawExpensePayload → Option ExpenseCreateObj :=
  parseExpenseCreate

/-- The crud-level view of a validated update object: the fields
`update_expense` probes with `is not None`. The four required fields are
always present after validation. -/
def toUpdatePayload (o : ExpenseCreateObj) : ExpenseUpdatePayload :=
  { category_id := some o.category_id
    subject := some o.subject
    expense_date := some o.expense_date
    amount := some o.amount
    reimbursable := some o.reimbursable
    description := o.description
    employee := o.employee }

/-! API endpoints (`api/routes/expense.py`). -/

/-- An HTTP outcome of an endpoint: 200 with a value, or an
`HTTPException` with a 400, 404 or 500 status. -/
inductive ApiResult (α : Type) where
  | ok (value : α)
  | badRequest (detail : String)
  | notFound (detail : String)
  | serverError (detail : String)
deriving DecidableEq, Repr

/-- Embedding of `get_general_summary_endpoint` (routes/expense.py lines 304-344):
404 when there are no available years, default the year to
`available_years[0]` when absent, 400 when the given year is not
available, otherwise delegate to `get_general_summary_data`.
(`headD 0` is `available_years[0]`, only reached when nonempty.) -/
def get_general_summary_endpoint (es : List Expense) (year : Option Int)
    (today : Date) : ApiResult GeneralSummary :=
  let available_years := get_available_years es
  if available_years.isEmpty then
    .notFound "No expense data available."
  else
    match year with
    | none => .ok (get_general_summary_data es (available_years.headD 0) today)
    | some y =>
      if y ∈ available_years then .ok (get_general_summary_data es y today)
      else .badRequest "No data available for year"

/-- Embedding of `update_expense_endpoint` (routes/expense.py lines 498-521):
`ExpenseUpdate(**expense_update_data)` runs first; a pydantic
`ValidationError` is a `ValueError`, caught before `update_expense` is
called, so an invalid payload never reaches the crud layer and the store
is untouched. -/
def update_expense_endpoint (store : List Expense) (expense_id : Nat)
    (r : RawExpensePayload) (newImage : Option String) (now : Nat) :
    UpdateOutcome :=
  match parseExpenseUpdate r with
  | none => { result := .error "validation error", store := store }
  | some o => update_expense store expense_id (toUpdatePayload o) newImage now

/-- The validation-then-persist shape of `create_expense_endpoint`
(routes/expense.py lines 96-147): `ExpenseCreate(**expense_data)` runs
before `create_expense`, so an invalid payload is rejected with no row
appended. -/
def create_expense_endpoint (store : List Expense) (newId user_id : Nat)
    (r : RawExpensePayload) (image : Option String) (now : Nat) :
    UpdateOutcome :=
  match parseExpenseCreate r with
  | none => { result := .error "validation error", store := store }
  | some o =>
    let row : Expense :=
      { expenses_id := newId, user_id := user_id
        category_id := o.category_id, subject := o.subject
        expense_date := o.expense_date, amount := o.amount
        reimbursable := o.reimbursable, description := o.description
        invoice_image := image, employee := o.employee, updated_at := now }
    { result := .ok row, store := store ++ [row] }

/-! Fixtures for the concrete scenarios of the testable properties. -/

/-- A single category, for the one-category rollup scenario. -/
def demoCategory : Category := ⟨1, "Food", true⟩

/-- Category-rollup fixture: one category, amounts 10, 20, 30, 40, 50
in 2024. -/
def catFixtureExpenses : List Expense :=
  [ mkExpense 1 ⟨2024, 1, 10⟩ 10
  , mkExpense 2 ⟨2024, 2, 10⟩ 20
  , mkExpense 3 ⟨2024, 3, 10⟩ 30
  , mkExpense 4 ⟨2024, 4, 10⟩ 40
  , mkExpense 5 ⟨2024, 5, 10⟩ 50 ]

instance : IsTotal (String × ℚ) (fun a b => a.2 ≥ b.2) :=
  ⟨fun a b => le_total b.2 a.2⟩

instance : IsTrans (String × ℚ) (fun a b => a.2 ≥ b.2) :=
  ⟨fun _ _ _ h1 h2 => le_trans h2 h1⟩

/-! Helper lemmas about the available-years query. -/

theorem available_years_nodup (es : List Expense) :
    (get_available_years es).Nodup := by
  unfold get_available_years
  exact ((List.perm_insertionSort _ _).nodup_iff).2 (List.nodup_dedup _)

theorem available_years_sorted (es : List Expense) :
    (get_available_years es).Sorted (fun a b => a ≥ b) := by
  unfold get_available_years
  exact List.sorted_insertionSort _ _

theorem available_years_mem (es : List Expense) (y : Int) :
    y ∈ get_available_years es ↔ ∃ e ∈ es, e.expense_date.year = y := by
  unfold get_available_years
  rw [List.mem_insertionSort, List.mem_dedup, List.mem_map]

theorem available_years_strict (es : List Expense) :
    (get_available_years es).Sorted (fun a b => a > b) := by
  have h1 := available_years_nodup es
  have h2 := available_years_sorted es
  unfold List.Sorted at h2 ⊢
  unfold List.Nodup at h1
  exact (h2.and h1).imp (fun h => lt_of_le_of_ne h.1 (Ne.symm h.2))

theorem available_years_nil_iff (es : List Expense) :
    get_available_years es = [] ↔ es = [] := by
  constructor
  · intro h
    cases es with
    | nil => rfl
    | cons e t =>
      exfalso
      have hm : e.expense_date.year ∈ get_available_years (e :: t) :=
        (available_years_mem _ _).2 ⟨e, List.mem_cons_self _ _, rfl⟩
      rw [h] at hm
      exact List.not_mem_nil _ hm
  · rintro rfl; rfl

/-! Helper lemmas about the last-5-months rollup. -/

theorem hasMonthData_iff (es : List Expense) (year : Int) (m : Nat) :
    hasMonthData es year m = true ↔
      ∃ e ∈ es, e.expense_date.year = year ∧ e.expense_date.month = m := by
  simp [hasMonthData, inYearMonth, List.any_eq_true]

theorem mem_monthsWithData (es : List Expense) (year : Int) (m : Nat) :
    m ∈ monthsWithData es year ↔
      ∃ e ∈ es, e.expense_date.year = year ∧ e.expense_date.month = m := by
  simp [monthsWithData, List.mem_toFinset, List.mem_map, List.mem_filter]
  constructor
  · rintro ⟨e, ⟨he, hy⟩, rfl⟩; exact ⟨e, he, hy, rfl⟩
  · rintro ⟨e, he, hy, rfl⟩; exact ⟨e, ⟨he, hy⟩, rfl⟩

theorem mem_monthsDesc (m : Nat) : m ∈ monthsDesc ↔ 1 ≤ m ∧ m ≤ 12 := by
  simp [monthsDesc]
  omega

theorem filter_months_eq_sort (es : List Expense) (year : Int)
    (hval : ∀ e ∈ es, e.expense_date.year = year →
      1 ≤ e.expense_date.month ∧ e.expense_date.month ≤ 12) :
    monthsDesc.filter (hasMonthData es year) =
      (monthsWithData es year).sort (fun a b => a ≥ b) := by
  have hnodupL : (monthsDesc.filter (hasMonthData es year)).Nodup :=
    (by decide : monthsDesc.Nodup).filter _
  have hsortL : (monthsDesc.filter (hasMonthData es year)).Sorted
      (fun a b => a ≥ b) :=
    List.Pairwise.sublist (List.filter_sublist _)
      (by decide : monthsDesc.Sorted (fun a b => a ≥ b))
  have hnodupR := (monthsWithData es year).sort_nodup (fun a b => a ≥ b)
  have hsortR := (monthsWithData es year).sort_sorted (fun a b => a ≥ b)
  have hfin : (monthsDesc.filter (hasMonthData es year)).toFinset =
      ((monthsWithData es year).sort (fun a b => a ≥ b)).toFinset := by
    rw [Finset.sort_toFinset]
    ext m
    rw [List.mem_toFinset, List.mem_filter, mem_monthsWithData,
      mem_monthsDesc, hasMonthData_iff]
    constructor
    · rintro ⟨_, h⟩; exact h
    · rintro ⟨e, he, hy, rfl⟩
      exact ⟨hval e he hy, e, he, hy, rfl⟩
  exact List.eq_of_perm_of_sorted
    (List.perm_of_nodup_nodup_toFinset_eq hnodupL hnodupR hfin)
    hsortL hsortR

/-! Helper lemmas about primary-key and unique-index lookups. -/

theorem find?_by_id (cats : List Category)
    (hids : (cats.map Category.category_id).Nodup)
    {c : Category} (hc : c ∈ cats) :
    cats.find? (fun x => x.category_id == c.category_id) = some c := by
  induction cats with
  | nil => cases hc
  | cons d t ih =>
    rw [List.map_cons, List.nodup_cons] at hids
    by_cases hd : d.category_id = c.category_id
    · have hdc : d = c := by
        rcases List.mem_cons.1 hc with rfl | hct
        · rfl
        · exact absurd (hd ▸ List.mem_map_of_mem Category.category_id hct)
            hids.1
      rw [List.find?_cons_of_pos _ (by simp [hd])]
      rw [hdc]
    · have hct : c ∈ t := by
        rcases List.mem_cons.1 hc with rfl | h
        · exact absurd rfl hd
        · exact h
      rw [List.find?_cons_of_neg _ (by simp [hd])]
      exact ih hids.2 hct

theorem find?_by_name (cats : List Category)
    (hnames : (cats.map Category.name).Nodup)
    {c : Category} (hc : c ∈ cats) :
    cats.find? (fun x => x.name == c.name) = some c := by
  induction cats with
  | nil => cases hc
  | cons d t ih =>
    rw [List.map_cons, List.nodup_cons] at hnames
    by_cases hd : d.name = c.name
    · have hdc : d = c := by
        rcases List.mem_cons.1 hc with rfl | hct
        · rfl
        · exact absurd (hd ▸ List.mem_map_of_mem Category.name hct) hnames.1
      rw [List.find?_cons_of_pos _ (by simp [hd])]
      rw [hdc]
    · have hct : c ∈ t := by
        rcases List.mem_cons.1 hc with rfl | h
        · exact absurd rfl hd
        · exact h
      rw [List.find?_cons_of_neg _ (by simp [hd])]
      exact ih hnames.2 hct

theorem find?_expense_by_id (store : List Expense)
    (hids : (store.map Expense.expenses_id).Nodup)
    {e : Expense} (he : e ∈ store) :
    store.find? (fun x => x.expenses_id == e.expenses_id) = some e := by
  induction store with
  | nil => cases he
  | cons d t ih =>
    rw [List.map_cons, List.nodup_cons] at hids
    by_cases hd : d.expenses_id = e.expenses_id
    · have hde : d = e := by
        rcases List.mem_cons.1 he with rfl | het
        · rfl
        · exact absurd (hd ▸ List.mem_map_of_mem Expense.expenses_id het)
            hids.1
      rw [List.find?_cons_of_pos _ (by simp [hd])]
      rw [hde]
    · have het : e ∈ t := by
        rcases List.mem_cons.1 he with rfl | h
        · exact absurd rfl hd
        · exact h
      rw [List.find?_cons_of_neg _ (by simp [hd])]
      exact ih hids.2 het

theorem find?_expense_none (store : List Expense) (eid : Nat)
    (h : ∀ e ∈ store, e.expenses_id ≠ eid) :
    store.find? (fun x => x.expenses_id == eid) = none := by
  rw [List.find?_eq_none]
  intro x hx
  simp [h x hx]

/-! Helper lemmas about the category rollup. -/

theorem joinedRows_cons (cats : List Category) (e : Expense)
    (t : List Expense) (year : Int) :
    joinedRows cats (e :: t) year =
      (if e.expense_date.year = year then
        ((cats.find? (fun c => c.category_id == e.category_id)).map
          (fun c => (c.name, e.amount))).toList
       else []) ++ joinedRows cats t year := by
  unfold joinedRows
  rw [List.filter_cons]
  by_cases hy : e.expense_date.year = year
  · rw [if_pos (by simp [hy] : (e.expense_date.year == year) = true)]
    rw [List.filterMap_cons]
    cases h : cats.find? (fun c => c.category_id == e.category_id) <;>
      simp [h, hy]
  · rw [if_neg (by simp [hy] : ¬ (e.expense_date.year == year) = true)]
    simp [hy]

theorem joined_name_sum (cats : List Category) (year : Int) {n : String}
    {c : Category}
    (hids : (cats.map Category.category_id).Nodup)
    (hnames : (cats.map Category.name).Nodup)
    (hc : c ∈ cats) (hn : c.name = n) :
    ∀ es : List Expense,
      (∀ e ∈ es, ∃ c0 ∈ cats, c0.category_id = e.category_id) →
      (((joinedRows cats es year).filter (fun r => r.1 == n)).map
        Prod.snd).sum = categorySum es year c := by
  intro es
  induction es with
  | nil => intro _; simp [joinedRows, categorySum, sumWhere]
  | cons e t ih =>
    intro href
    have htail := fun x hx => href x (List.mem_cons_of_mem _ hx)
    obtain ⟨c0, hc0, hc0id⟩ := href e (List.mem_cons_self _ _)
    rw [joinedRows_cons]
    have hcs : categorySum (e :: t) year c =
        (if e.expense_date.year = year ∧ e.category_id = c.category_id
         then e.amount else 0) + categorySum t year c := by
      simp only [categorySum, sumWhere, List.filter_cons]
      by_cases h1 : e.expense_date.year = year <;>
        by_cases h2 : e.category_id = c.category_id <;>
          simp [h1, h2]
    rw [hcs]
    by_cases hy : e.expense_date.year = year
    · have hsome :
          (cats.find? (fun x => x.category_id == e.category_id)).isSome := by
        rw [List.find?_isSome]
        exact ⟨c0, hc0, by simp [hc0id]⟩
      obtain ⟨cf, hcf⟩ := Option.isSome_iff_exists.1 hsome
      have hcfmem := List.mem_of_find?_eq_some hcf
      have hcfid : cf.category_id = e.category_id := by
        have := List.find?_some hcf
        simpa using this
      rw [if_pos hy, hcf]
      by_cases hid : e.category_id = c.category_id
      · have hcfc : cf = c := by
          apply List.inj_on_of_nodup_map hids hcfmem hc
          rw [hcfid, hid]
        simp [hcfc, hn, hy, hid, List.filter_cons, ih htail]
      · have hcfname : ¬ (cf.name = n) := by
          intro hname
          have hcfc : cf = c :=
            List.inj_on_of_nodup_map hnames hcfmem hc (by rw [hname, hn])
          exact hid (by rw [← hcfid, hcfc])
        simp [hy, hid, hcfname, List.filter_cons, ih htail]
    · rw [if_neg hy]
      have hno : ¬ (e.expense_date.year = year ∧
          e.category_id = c.category_id) := fun h => hy h.1
      simp [hno, ih htail]

theorem mem_joinedRows (cats : List Category) (year : Int) :
    ∀ (es : List Expense) (r : String × ℚ),
      r ∈ joinedRows cats es year ↔
        ∃ e ∈ es, e.expense_date.year = year ∧
          ∃ cf, cats.find? (fun c => c.category_id == e.category_id) =
            some cf ∧ r = (cf.name, e.amount) := by
  intro es
  induction es with
  | nil => intro r; simp [joinedRows]
  | cons e t ih =>
    intro r
    rw [joinedRows_cons, List.mem_append]
    constructor
    · rintro (hhead | htail)
      · by_cases hy : e.expense_date.year = year
        · rw [if_pos hy] at hhead
          cases hcf : cats.find? (fun c => c.category_id == e.category_id)
            with
          | none => rw [hcf] at hhead; simp at hhead
          | some cf =>
            rw [hcf] at hhead
            simp at hhead
            exact ⟨e, List.mem_cons_self _ _, hy, cf, hcf, hhead⟩
        · rw [if_neg hy] at hhead; simp at hhead
      · obtain ⟨e0, he0, hy0, cf, hcf, hr⟩ := (ih r).1 htail
        exact ⟨e0, List.mem_cons_of_mem _ he0, hy0, cf, hcf, hr⟩
    · rintro ⟨e0, he0, hy0, cf, hcf, hr⟩
      rcases List.mem_cons.1 he0 with rfl | he0t
      · left
        rw [if_pos hy0, hcf]
        simp [hr]
      · right
        exact (ih r).2 ⟨e0, he0t, hy0, cf, hcf, hr⟩

theorem mem_joined_names (cats : List Category) (es : List Expense)
    (year : Int) (n : String)
    (hids : (cats.map Category.category_id).Nodup) :
    n ∈ (joinedRows cats es year).map Prod.fst ↔
      ∃ c ∈ cats, c.name = n ∧ categoryHasData es year c = true := by
  rw [List.mem_map]
  constructor
  · rintro ⟨r, hr, hfst⟩
    obtain ⟨e, he, hy, cf, hcf, rfl⟩ := (mem_joinedRows cats year es r).1 hr
    have hcfmem := List.mem_of_find?_eq_some hcf
    have hcfid : cf.category_id = e.category_id := by
      have := List.find?_some hcf
      simpa using this
    refine ⟨cf, hcfmem, hfst, ?_⟩
    simp only [categoryHasData, List.any_eq_true]
    exact ⟨e, he, by simp [hy, hcfid]⟩
  · rintro ⟨c, hc, hn, hdata⟩
    simp only [categoryHasData, List.any_eq_true] at hdata
    obtain ⟨e, he, hpred⟩ := hdata
    have hy : e.expense_date.year = year := by
      simp at hpred; exact hpred.1
    have hid : e.category_id = c.category_id := by
      simp at hpred; exact hpred.2
    have hcf : cats.find? (fun x => x.category_id == e.category_id) =
        some c := by
      rw [hid]
      exact find?_by_id cats hids hc
    exact ⟨(c.name, e.amount),
      (mem_joinedRows cats year es _).2 ⟨e, he, hy, c, hcf, rfl⟩, hn⟩

theorem catRollup_sorted (cats : List Category) (es : List Expense)
    (year : Int) :
    ((get_expenses_by_category cats es year).map Prod.snd).Sorted
      (fun a b => a ≥ b) := by
  unfold get_expenses_by_category
  exact List.Pairwise.map _ (fun a b h => h)
    (List.sorted_insertionSort (fun a b : String × ℚ => a.2 ≥ b.2) _)

theorem catRollup_perm (cats : List Category) (es : List Expense)
    (year : Int)
    (hids : (cats.map Category.category_id).Nodup)
    (hnames : (cats.map Category.name).Nodup)
    (href : ∀ e ∈ es, ∃ c0 ∈ cats, c0.category_id = e.category_id) :
    (get_expenses_by_category cats es year).Perm
      ((cats.filter (fun c => categoryHasData es year c)).map
        (fun c => (c.name, categorySum es year c))) := by
  classical
  unfold get_expenses_by_category
  set rows := joinedRows cats es year with hrows
  set names := (rows.map Prod.fst).dedup with hnamesdef
  set H : String → ℚ := fun n =>
    match cats.find? (fun c => c.name == n) with
    | some c => categorySum es year c
    | none => 0 with hH
  have stepA : names.map
      (fun n => (n, ((rows.filter (fun r => r.1 == n)).map Prod.snd).sum)) =
      names.map (fun n => (n, H n)) := by
    apply List.map_congr_left
    intro n hn
    have hn2 : n ∈ rows.map Prod.fst := List.mem_dedup.1 hn
    obtain ⟨c, hc, hcname, hdata⟩ :=
      (mem_joined_names cats es year n hids).1 hn2
    have hfind : cats.find? (fun x => x.name == n) = some c := by
      rw [← hcname]
      exact find?_by_name cats hnames hc
    have hHval : H n = categorySum es year c := by
      rw [hH]; simp only [hfind]
    rw [hHval]
    have hsum := joined_name_sum cats year hids hnames hc hcname es href
    rw [← hrows] at hsum
    rw [hsum]
  have stepB : (cats.filter (fun c => categoryHasData es year c)).map
      (fun c => (c.name, categorySum es year c)) =
      ((cats.filter (fun c => categoryHasData es year c)).map
        Category.name).map (fun n => (n, H n)) := by
    rw [List.map_map]
    apply List.map_congr_left
    intro c hc
    have hcmem : c ∈ cats := List.mem_of_mem_filter hc
    have hfind : cats.find? (fun x => x.name == c.name) = some c :=
      find?_by_name cats hnames hcmem
    simp only [Function.comp]
    have hHval : H c.name = categorySum es year c := by
      rw [hH]; simp only [hfind]
    rw [hHval]
  have stepC : names.Perm
      ((cats.filter (fun c => categoryHasData es year c)).map
        Category.name) := by
    apply List.perm_of_nodup_nodup_toFinset_eq
    · exact List.nodup_dedup _
    · exact List.Nodup.sublist
        (List.Sublist.map Category.name (List.filter_sublist cats)) hnames
    · ext n
      rw [List.mem_toFinset, List.mem_toFinset, List.mem_dedup,
        mem_joined_names cats es year n hids, List.mem_map]
      constructor
      · rintro ⟨c, hc, hcname, hdata⟩
        exact ⟨c, List.mem_filter.2 ⟨hc, hdata⟩, hcname⟩
      · rintro ⟨c, hc, hcname⟩
        obtain ⟨hcmem, hdata⟩ := List.mem_filter.1 hc
        exact ⟨c, hcmem, hcname, hdata⟩
  refine (List.perm_insertionSort _ _).trans ?_
  rw [stepA, stepB]
  exact stepC.map _

/-! Claim theorems. -/

/-- C1: for the fixed expense set dated 2024-01-15 ($100), 2024-02-20
($200), 2024-03-25 ($150), 2024-04-10 ($300), 2024-07-05 ($250),
2024-08-15 ($50), requested year 2024 and a wall-clock today in August
2024 (current_month = 8, current_quarter = 3), the general summary
returns total_spending = 1050.00, this_month = 50.00, last_month =
250.00, this_quarter = 300.00 and last_quarter = 300.00, each rounded to
2 decimal places. -/
theorem general_summary_fixture_2024 :
    get_general_summary_data fixtureExpenses 2024 ⟨2024, 8, 20⟩ =
      { total_spending := 1050, this_month := 50, last_month := 250
        this_quarter := 300, last_quarter := 300 } := by
  simp [get_general_summary_data, fixtureExpenses, sumWhere, mkExpense,
    round2, monthInQuarter]
  norm_num

/-- C2: for every expense set, requested year and wall-clock current
date, this_month sums the rows of the requested year in the current
wall-clock month; last_month sums December of (current_year - 1) when
current_month is 1 and otherwise month (current_month - 1) of the
requested year; last_quarter sums the 3-month range of quarter
(current_quarter - 1) of the current system year, except that when
current_quarter is 1 it sums quarter 4 of (current_year - 1) — the
requested year is never used for the last_quarter year. -/
theorem general_summary_relative_buckets (es : List Expense) (year : Int)
    (today : Date) :
    (get_general_summary_data es year today).this_month =
      round2 (sumWhere (fun e => e.expense_date.year == year &&
        e.expense_date.month == today.month) es)
    ∧ (get_general_summary_data es year today).last_month =
      round2 (sumWhere (fun e =>
        if today.month = 1 then
          e.expense_date.year == today.year - 1 &&
            e.expense_date.month == 12
        else
          e.expense_date.year == year &&
            e.expense_date.month == today.month - 1) es)
    ∧ (get_general_summary_data es year today).last_quarter =
      round2 (sumWhere (fun e =>
        if (today.month - 1) / 3 + 1 = 1 then
          e.expense_date.year == today.year - 1 &&
            monthInQuarter 4 e.expense_date.month
        else
          e.expense_date.year == today.year &&
            monthInQuarter ((today.month - 1) / 3 + 1 - 1)
              e.expense_date.month) es) := by
  refine ⟨rfl, ?_, ?_⟩
  · by_cases h : today.month = 1 <;>
      simp [get_general_summary_data, h]
  · by_cases h : (today.month - 1) / 3 + 1 = 1
    · have h0 : (today.month - 1) / 3 = 0 := by omega
      simp [get_general_summary_data, h, h0]
    · have h0 : ¬ ((today.month - 1) / 3 = 0) := by omega
      have h1 : (today.month - 1) / 3 + 1 - 1 = (today.month - 1) / 3 := by
        omega
      simp [get_general_summary_data, h, h0, h1]

/-- C3: for every expense set and requested year (whose rows carry valid
calendar months 1..12), the last-5-months rollup equals the descending
list of the distinct months with data, truncated to 5, each mapped to its
3-letter abbreviation and its monthly sum; its length is
min 5 (number of distinct months with data) — so exactly 5 when 6 or more
months have data and exactly the number of months otherwise — and it is
empty when the year has no data. -/
theorem last_5_months_rollup_spec (es : List Expense) (year : Int)
    (hval : ∀ e ∈ es, e.expense_date.year = year →
      1 ≤ e.expense_date.month ∧ e.expense_date.month ≤ 12) :
    get_last_5_months_summary es year =
      (((monthsWithData es year).sort (fun a b => a ≥ b)).take 5).map
        (fun m => (monthAbbrev m, monthSum es year m))
    ∧ (get_last_5_months_summary es year).length =
        min 5 (monthsWithData es year).card
    ∧ (monthsWithData es year = ∅ →
        get_last_5_months_summary es year = []) := by
  have key := filter_months_eq_sort es year hval
  refine ⟨?_, ?_, ?_⟩
  · rw [get_last_5_months_summary, key]
  · rw [get_last_5_months_summary, key, List.length_map, List.length_take,
      Finset.length_sort]
  · intro hempty
    rw [get_last_5_months_summary, key, hempty]
    simp

/-- Witness for C3: the fixture has data in months 1, 2, 3, 4, 7, 8 of
2024, so the rollup is the descending-months image of the sorted distinct
months, truncated to 5. -/
theorem last_5_months_rollup_spec_witness :
    get_last_5_months_summary fixtureExpenses 2024 =
      (((monthsWithData fixtureExpenses 2024).sort
        (fun a b => a ≥ b)).take 5).map
        (fun m => (monthAbbrev m, monthSum fixtureExpenses 2024 m)) :=
  (last_5_months_rollup_spec fixtureExpenses 2024 (by decide)).1

/-- C4: for every expense set, the available-years query returns exactly
the distinct calendar years among all expenses, without duplicates, in
strictly descending order. -/
theorem available_years_desc_dedup (es : List Expense) :
    (get_available_years es).Nodup
    ∧ (get_available_years es).Sorted (fun a b => a > b)
    ∧ ∀ y : Int, y ∈ get_available_years es ↔
        ∃ e ∈ es, e.expense_date.year = y :=
  ⟨available_years_nodup es, available_years_strict es,
    fun y => available_years_mem es y⟩

/-- C5: for every category table (with its primary keys and its unique
name index) and every expense set satisfying the foreign-key constraint,
the category rollup is a permutation of one row (name, year total) per
category having at least one expense in the year, sorted by amount
descending; in particular one category with amounts 10, 20, 30, 40, 50 in
the year yields exactly one row carrying the category's name and amount
150. -/
theorem expenses_by_category_rollup_spec :
    (∀ (cats : List Category) (es : List Expense) (year : Int),
      (cats.map Category.category_id).Nodup →
      (cats.map Category.name).Nodup →
      (∀ e ∈ es, ∃ c0 ∈ cats, c0.category_id = e.category_id) →
      (get_expenses_by_category cats es year).Perm
        ((cats.filter (fun c => categoryHasData es year c)).map
          (fun c => (c.name, categorySum es year c)))
      ∧ ((get_expenses_by_category cats es year).map Prod.snd).Sorted
          (fun a b => a ≥ b))
    ∧ get_expenses_by_category [demoCategory] catFixtureExpenses 2024 =
        [("Food", 150)] := by
  constructor
  · intro cats es year hids hnames href
    exact ⟨catRollup_perm cats es year hids hnames href,
      catRollup_sorted cats es year⟩
  · simp [get_expenses_by_category, joinedRows, catFixtureExpenses,
      demoCategory, mkExpense, List.insertionSort, List.orderedInsert,
      List.dedup, List.find?]
    norm_num

/-- Witness for C5: the universal part applied to the one-category
fixture. -/
theorem expenses_by_category_rollup_spec_witness :
    (get_expenses_by_category [demoCategory] catFixtureExpenses 2024).Perm
      (([demoCategory].filter
        (fun c => categoryHasData catFixtureExpenses 2024 c)).map
        (fun c => (c.name, categorySum catFixtureExpenses 2024 c)))
    ∧ ((get_expenses_by_category [demoCategory] catFixtureExpenses
        2024).map Prod.snd).Sorted (fun a b => a ≥ b) :=
  expenses_by_category_rollup_spec.1 [demoCategory] catFixtureExpenses
    2024 (by decide) (by decide) (by decide)

/-- C6: for every stored expense and update payload, the update
overwrites exactly the non-null payload fields, leaves every null payload
field unchanged, always refreshes the update timestamp, fails with
NotFound when the id does not exist — leaving the store unmodified — and
touches no other row. -/
theorem update_expense_partial_spec (store : List Expense) (eid : Nat)
    (u : ExpenseUpdatePayload) (img : Option String) (now : Nat)
    (hids : (store.map Expense.expenses_id).Nodup) :
    ((∀ e ∈ store, e.expenses_id ≠ eid) →
      (update_expense store eid u img now).result =
        .error "Expense not found"
      ∧ (update_expense store eid u img now).store = store)
    ∧ (∀ e ∈ store, e.expenses_id = eid →
        (update_expense store eid u img now).result =
          .ok (applyUpdate e u img now)
        ∧ (∀ v, u.category_id = some v →
            (applyUpdate e u img now).category_id = v)
        ∧ (u.category_id = none →
            (applyUpdate e u img now).category_id = e.category_id)
        ∧ (∀ v, u.subject = some v → (applyUpdate e u img now).subject = v)
        ∧ (u.subject = none → (applyUpdate e u img now).subject = e.subject)
        ∧ (∀ v, u.expense_date = some v →
            (applyUpdate e u img now).expense_date = v)
        ∧ (u.expense_date = none →
            (applyUpdate e u img now).expense_date = e.expense_date)
        ∧ (∀ v, u.amount = some v → (applyUpdate e u img now).amount = v)
        ∧ (u.amount = none → (applyUpdate e u img now).amount = e.amount)
        ∧ (∀ v, u.reimbursable = some v →
            (applyUpdate e u img now).reimbursable = v)
        ∧ (u.reimbursable = none →
            (applyUpdate e u img now).reimbursable = e.reimbursable)
        ∧ (∀ v, u.description = some v →
            (applyUpdate e u img now).description = some v)
        ∧ (u.description = none →
            (applyUpdate e u img now).description = e.description)
        ∧ (∀ v, u.employee = some v →
            (applyUpdate e u img now).employee = some v)
        ∧ (u.employee = none →
            (applyUpdate e u img now).employee = e.employee)
        ∧ (∀ f, img = some f →
            (applyUpdate e u img now).invoice_image = some f)
        ∧ (img = none →
            (applyUpdate e u img now).invoice_image = e.invoice_image)
        ∧ (applyUpdate e u img now).updated_at = now
        ∧ applyUpdate e u img now ∈ (update_expense store eid u img now).store
        ∧ (∀ x ∈ store, x.expenses_id ≠ eid →
            x ∈ (update_expense store eid u img now).store)
        ∧ (∀ x ∈ (update_expense store eid u img now).store,
            x = applyUpdate e u img now ∨ x ∈ store)) := by
  constructor
  · intro h
    rw [update_expense, find?_expense_none store eid h]
    exact ⟨rfl, rfl⟩
  · intro e he heid
    have hfind : store.find? (fun x => x.expenses_id == eid) = some e := by
      rw [← heid]
      exact find?_expense_by_id store hids he
    refine ⟨?_, ?_, ?_, ?_, ?_, ?_, ?_, ?_, ?_, ?_, ?_, ?_, ?_, ?_, ?_,
      ?_, ?_, ?_, ?_, ?_, ?_⟩
    · rw [update_expense, hfind]
    · intro v hv; simp [applyUpdate, hv]
    · intro hv; simp [applyUpdate, hv]
    · intro v hv; simp [applyUpdate, hv]
    · intro hv; simp [applyUpdate, hv]
    · intro v hv; simp [applyUpdate, hv]
    · intro hv; simp [applyUpdate, hv]
    · intro v hv; simp [applyUpdate, hv]
    · intro hv; simp [applyUpdate, hv]
    · intro v hv; simp [applyUpdate, hv]
    · intro hv; simp [applyUpdate, hv]
    · intro v hv; simp [applyUpdate, hv]
    · intro hv; simp [applyUpdate, hv]
    · intro v hv; simp [applyUpdate, hv]
    · intro hv; simp [applyUpdate, hv]
    · intro f hf; simp [applyUpdate, hf]
    · intro hf; simp [applyUpdate, hf]
    · simp [applyUpdate]
    · rw [update_expense, hfind]
      simp only
      rw [List.mem_map]
      exact ⟨e, he, by simp [heid]⟩
    · intro x hx hxid
      rw [update_expense, hfind]
      simp only
      rw [List.mem_map]
      exact ⟨x, hx, by simp [hxid]⟩
    · intro x hx
      rw [update_expense, hfind] at hx
      simp only at hx
      rw [List.mem_map] at hx
      obtain ⟨y, hy, hxy⟩ := hx
      by_cases hyid : y.expenses_id = eid
      · left; rw [← hxy]; simp [hyid]
      · right; rw [← hxy]; simp [hyid]; exact hy

/-- Witness for C6: updating row 3 of the fixture with a payload that
only sets subject and amount returns the row with exactly those fields
applied. -/
theorem update_expense_partial_spec_witness :
    (update_expense fixtureExpenses 3
      ⟨none, some "Lunch", none, some 75, none, none, none⟩
      none 123).result =
      .ok (applyUpdate (mkExpense 3 ⟨2024, 3, 25⟩ 150)
        ⟨none, some "Lunch", none, some 75, none, none, none⟩ none 123) :=
  ((update_expense_partial_spec fixtureExpenses 3
      ⟨none, some "Lunch", none, some 75, none, none, none⟩ none 123
      (by decide)).2
    (mkExpense 3 ⟨2024, 3, 25⟩ 150)
    (List.mem_cons_of_mem _ (List.mem_cons_of_mem _
      (List.mem_cons_self _ _)))
    rfl).1

/-- C7: for every expense set, the general-summary endpoint: with an
empty store it fails with NotFound; with no year parameter it answers
with the summary of the most recent (maximal) available year; with an
explicit year having no data it fails with a 400 bad request (never a
500). -/
theorem general_summary_endpoint_spec (es : List Expense) (y : Int)
    (today : Date) :
    (es = [] → ∀ yq,
      get_general_summary_endpoint es yq today =
        .notFound "No expense data available.")
    ∧ (es ≠ [] → ∃ y0,
        (∃ e ∈ es, e.expense_date.year = y0)
        ∧ (∀ e ∈ es, e.expense_date.year ≤ y0)
        ∧ get_general_summary_endpoint es none today =
            .ok (get_general_summary_data es y0 today))
    ∧ (es ≠ [] → (∀ e ∈ es, e.expense_date.year ≠ y) →
        get_general_summary_endpoint es (some y) today =
          .badRequest "No data available for year") := by
  refine ⟨?_, ?_, ?_⟩
  · rintro rfl yq
    simp [get_general_summary_endpoint, get_available_years]
  · intro hne
    have hL : get_available_years es ≠ [] := by
      intro h; exact hne ((available_years_nil_iff es).1 h)
    obtain ⟨a, t, hat⟩ := List.exists_cons_of_ne_nil hL
    refine ⟨a, ?_, ?_, ?_⟩
    · exact (available_years_mem es a).1
        (by rw [hat]; exact List.mem_cons_self _ _)
    · intro e he
      have hmem : e.expense_date.year ∈ get_available_years es :=
        (available_years_mem es _).2 ⟨e, he, rfl⟩
      rw [hat] at hmem
      rcases List.mem_cons.1 hmem with h | h
      · omega
      · have hs := available_years_sorted es
        rw [hat] at hs
        exact List.rel_of_sorted_cons hs _ h
    · simp [get_general_summary_endpoint, hat]
  · intro hne hnot
    have hL : get_available_years es ≠ [] := by
      intro h; exact hne ((available_years_nil_iff es).1 h)
    have hy : y ∉ get_available_years es := by
      intro hmem
      obtain ⟨e, he, hye⟩ := (available_years_mem es y).1 hmem
      exact hnot e he hye
    simp [get_general_summary_endpoint, List.isEmpty_iff, hL, hy]

/-- Witness for C7: year 1999 has no data in the fixture, so the endpoint
answers 400. -/
theorem general_summary_endpoint_spec_witness :
    get_general_summary_endpoint fixtureExpenses (some 1999)
      ⟨2024, 8, 20⟩ = .badRequest "No data available for year" :=
  (general_summary_endpoint_spec fixtureExpenses 1999 ⟨2024, 8, 20⟩).2.2
    (by simp [fixtureExpenses]) (by decide)

/-- C8: for every store and id, delete fails with NotFound exactly when
no expense has the id (leaving the store unchanged); when the expense
exists and has an attachment whose deletion fails, the whole delete fails
and the row is not removed; otherwise the row is removed, the other rows
are kept, and the operation returns True. -/
theorem delete_expense_spec (store : List Expense)
    (fileExists removeFails : String → Bool) (eid : Nat)
    (hids : (store.map Expense.expenses_id).Nodup) :
    ((∀ e ∈ store, e.expenses_id ≠ eid) ↔
      (delete_expense store fileExists removeFails eid).result =
        .error "Expense not found")
    ∧ ((∀ e ∈ store, e.expenses_id ≠ eid) →
        (delete_expense store fileExists removeFails eid).store = store)
    ∧ (∀ e ∈ store, e.expenses_id = eid →
        (∀ f, e.invoice_image = some f → fileExists f = true →
          removeFails f = true →
          (delete_expense store fileExists removeFails eid).result =
            .error "Error deleting invoice image"
          ∧ (delete_expense store fileExists removeFails eid).store =
              store)
        ∧ ((e.invoice_image = none ∨
            ∀ f, e.invoice_image = some f →
              fileExists f = false ∨ removeFails f = false) →
            (delete_expense store fileExists removeFails eid).result =
              .ok true
            ∧ e ∉ (delete_expense store fileExists removeFails eid).store
            ∧ (∀ x ∈ store, x.expenses_id ≠ eid →
                x ∈ (delete_expense store fileExists removeFails eid).store)
            ∧ (∀ x ∈ (delete_expense store fileExists removeFails
                eid).store, x ∈ store))) := by
  refine ⟨⟨?_, ?_⟩, ?_, ?_⟩
  · intro h
    rw [delete_expense, find?_expense_none store eid h]
  · intro hres e he heid
    have hfind : store.find? (fun x => x.expenses_id == eid) = some e := by
      rw [← heid]
      exact find?_expense_by_id store hids he
    rw [delete_expense, hfind] at hres
    simp only at hres
    cases himg : e.invoice_image with
    | none => rw [himg] at hres; simp at hres
    | some f =>
      rw [himg] at hres
      by_cases hff : (fileExists f && removeFails f) = true <;>
        simp [hff] at hres
  · intro h
    rw [delete_expense, find?_expense_none store eid h]
  · intro e he heid
    have hfind : store.find? (fun x => x.expenses_id == eid) = some e := by
      rw [← heid]
      exact find?_expense_by_id store hids he
    constructor
    · intro f hf hex hrf
      rw [delete_expense, hfind]
      simp only [hf]
      rw [if_pos (by simp [hex, hrf])]
      exact ⟨rfl, rfl⟩
    · intro hok
      have hremoved :
          (delete_expense store fileExists removeFails eid).store =
            store.filter (fun x => !(x.expenses_id == eid))
          ∧ (delete_expense store fileExists removeFails eid).result =
            .ok true := by
        simp only [delete_expense, hfind]
        cases himg : e.invoice_image with
        | none => exact ⟨rfl, rfl⟩
        | some f =>
          rcases hok with hnone | hfail
          · rw [himg] at hnone; cases hnone
          · rcases hfail f himg with hex | hrf
            · simp [hex]
            · simp [hrf]
      refine ⟨hremoved.2, ?_, ?_, ?_⟩
      · rw [hremoved.1]
        intro hmem
        have hkeep := (List.mem_filter.1 hmem).2
        simp [heid] at hkeep
      · intro x hx hxid
        rw [hremoved.1]
        exact List.mem_filter.2 ⟨hx, by simp [hxid]⟩
      · intro x hx
        rw [hremoved.1] at hx
        exact (List.mem_filter.1 hx).1

/-- Witness for C8: deleting fixture row 6 (no attachment, no
file-system failure) succeeds. -/
theorem delete_expense_spec_witness :
    (delete_expense fixtureExpenses (fun _ => false) (fun _ => false)
      6).result = .ok true :=
  (((delete_expense_spec fixtureExpenses (fun _ => false)
      (fun _ => false) 6 (by decide)).2.2
    (mkExpense 6 ⟨2024, 8, 15⟩ 50)
    (List.mem_cons_of_mem _ (List.mem_cons_of_mem _
      (List.mem_cons_of_mem _ (List.mem_cons_of_mem _
        (List.mem_cons_of_mem _ (List.mem_cons_self _ _))))))
    rfl).2 (Or.inl rfl)).1

/-- C9: the create schema accepts a payload iff the subject length is in
2..100, the amount is strictly positive, the description (when present)
has at least two whitespace-separated words and at most 500 characters,
and the employee name (when present) has 2..100 characters and does not
start with a digit; a rejected payload never reaches persistence: the
create endpoint errors out with the store unchanged. -/
theorem expense_create_validation_spec (cid : Nat) (subj : String)
    (d : Date) (amt : ℚ) (reimb : Option Bool) (desc emp : Option String) :
    ((parseExpenseCreate ⟨some cid, some subj, some d, some amt,
        reimb, desc, emp⟩).isSome ↔
      (2 ≤ subj.length ∧ subj.length ≤ 100 ∧ 0 < amt
       ∧ (∀ ds, desc = some ds → 2 ≤ countWords ds ∧ ds.length ≤ 500)
       ∧ (∀ s, emp = some s →
           2 ≤ s.length ∧ s.length ≤ 100 ∧ startsWithDigit s = false)))
    ∧ (∀ (store : List Expense) (newId uid : Nat) (img : Option String)
        (now : Nat),
        parseExpenseCreate ⟨some cid, some subj, some d, some amt,
          reimb, desc, emp⟩ = none →
        (create_expense_endpoint store newId uid ⟨some cid, some subj,
          some d, some amt, reimb, desc, emp⟩ img now).store = store
        ∧ (create_expense_endpoint store newId uid ⟨some cid, some subj,
          some d, some amt, reimb, desc, emp⟩ img now).result =
            .error "validation error") := by
  constructor
  · rw [parseExpenseCreate]
    cases desc with
    | none =>
      cases emp with
      | none =>
        simp [description_must_have_two_words, employee_name_validation]
        tauto
      | some s =>
        simp [description_must_have_two_words, employee_name_validation,
          startsWithDigit]
        tauto
    | some ds =>
      cases emp with
      | none =>
        simp [description_must_have_two_words, employee_name_validation]
        tauto
      | some s =>
        simp [description_must_have_two_words, employee_name_validation,
          startsWithDigit]
        tauto
  · intro store newId uid img now hnone
    rw [create_expense_endpoint, hnone]
    exact ⟨rfl, rfl⟩

/-- Witness for C9: a minimal valid payload (subject of 2 characters,
positive amount, no optional fields) is accepted. -/
theorem expense_create_validation_spec_witness :
    (parseExpenseCreate ⟨some 1, some "ab", some ⟨2024, 1, 1⟩, some 5,
      none, none, none⟩).isSome :=
  ((expense_create_validation_spec 1 "ab" ⟨2024, 1, 1⟩ 5 none none
    none).1).2 ⟨by decide, by decide, by decide, by simp, by simp⟩

/-- C10: the update schema is exactly the create schema (inheritance with
an empty body), so category_id, subject, expense_date and amount are
required: a payload omitting any of them fails validation and never
reaches the crud layer (store unchanged); an accepted update payload
carries all four fields and preserves the positive-amount and
subject-length constraints; only the optional fields (description,
employee, reimbursable) may be omitted. -/
theorem expense_update_schema_spec :
    parseExpenseUpdate = parseExpenseCreate
    ∧ (∀ r : RawExpensePayload,
        (r.category_id = none ∨ r.subject = none ∨
         r.expense_date = none ∨ r.amount = none) →
        parseExpenseUpdate r = none
        ∧ ∀ (store : List Expense) (eid : Nat) (img : Option String)
            (now : Nat),
            (update_expense_endpoint store eid r img now).store = store
            ∧ (update_expense_endpoint store eid r img now).result =
                .error "validation error")
    ∧ (∀ (r : RawExpensePayload) (o : ExpenseCreateObj),
        parseExpenseUpdate r = some o →
        r.category_id = some o.category_id ∧ r.subject = some o.subject
        ∧ r.expense_date = some o.expense_date ∧ r.amount = some o.amount
        ∧ 0 < o.amount ∧ 2 ≤ o.subject.length ∧ o.subject.length ≤ 100)
    ∧ (∃ (r : RawExpensePayload) (o : ExpenseCreateObj),
        r.description = none ∧ r.employee = none ∧ r.reimbursable = none
        ∧ parseExpenseUpdate r = some o) := by
  refine ⟨rfl, ?_, ?_, ?_⟩
  · intro r hmiss
    have hnone : parseExpenseUpdate r = none := by
      rw [parseExpenseUpdate, parseExpenseCreate]
      rcases hmiss with h | h | h | h <;> rw [h] <;>
        cases r.category_id <;> cases r.subject <;>
          cases r.expense_date <;> cases r.amount <;> rfl
    refine ⟨hnone, ?_⟩
    intro store eid img now
    rw [update_expense_endpoint, hnone]
    exact ⟨rfl, rfl⟩
  · intro r o hsome
    rw [parseExpenseUpdate, parseExpenseCreate] at hsome
    cases hcid : r.category_id with
    | none => rw [hcid] at hsome; cases hsome
    | some cid =>
    cases hsubj : r.subject with
    | none => rw [hcid, hsubj] at hsome; cases hsome
    | some subj =>
    cases hdate : r.expense_date with
    | none => rw [hcid, hsubj, hdate] at hsome; cases hsome
    | some dt =>
    cases hamt : r.amount with
    | none => rw [hcid, hsubj, hdate, hamt] at hsome; cases hsome
    | some amt =>
    rw [hcid, hsubj, hdate, hamt] at hsome
    simp only at hsome
    split at hsome
    · next hcond =>
      have ho := Option.some.inj hsome
      simp only [Bool.and_eq_true, decide_eq_true_eq] at hcond
      refine ⟨?_, ?_, ?_, ?_, ?_, ?_, ?_⟩
      · rw [← ho]
      · rw [← ho]
      · rw [← ho]
      · rw [← ho]
      · rw [← ho]; exact hcond.1.1.1.1.2
      · rw [← ho]; exact hcond.1.1.1.1.1.1
      · rw [← ho]; exact hcond.1.1.1.1.1.2
    · next => cases hsome
  · refine ⟨⟨some 1, some "ab", some ⟨2024, 1, 1⟩, some 1,
      none, none, none⟩, ?_, rfl, rfl, rfl, ?_⟩
    · exact ⟨1, "ab", ⟨2024, 1, 1⟩, 1, false, none, none⟩
    · rfl

/-- Witness for C10: an update payload omitting category_id is rejected
by the schema. -/
theorem expense_update_schema_spec_witness :
    parseExpenseUpdate ⟨none, some "ab", some ⟨2024, 1, 1⟩, some 5, none,
      none, none⟩ = none :=
  (expense_update_schema_spec.2.1
    ⟨none, some "ab", some ⟨2024, 1, 1⟩, some 5, none, none, none⟩
    (Or.inl rfl)).1

end ExpenseMS
